import Mathlib

/-!
# Verification of the work-item orchestration core

A shallow embedding of the routing / work-item orchestration core of the
repository (`src/ado_integration_tool.py`, `src/api_server.py`), together
with proofs of the specification's testable properties.

Strings in the Python source are `str` values manipulated with `split`,
`strip`, `replace`, `startswith`, `in` and `int(...)`; these primitives are
embedded below as executable functions over `List Char` (the `data` field of
Lean's `String`), with the same semantics on the character sets that occur in
this program.

The remote Azure DevOps service itself is not part of the repository; its
responses are modelled from the specification (sections 4.1, 6 and the data
model), and every definition doing so carries a doc comment starting with
`Modelled from the spec:`.  Everything else is translated directly from the
Python source, function by function.
-/

namespace Spec2Proof

/-! ## Python string primitives over `List Char` -/

/-- Whitespace as recognised by Python's `str.strip` (restricted to the ASCII
whitespace characters that can occur in this program's data). -/
def ws (c : Char) : Bool := c == ' ' || c == '\t' || c == '\n' || c == '\r'

/-- `str.strip()`: remove leading and trailing whitespace. -/
def stripList (l : List Char) : List Char :=
  ((l.dropWhile ws).reverse.dropWhile ws).reverse

/-- `str.strip()` on a `String`. -/
def pyStrip (s : String) : String := String.mk (stripList s.data)

/-- `sep.split(c)` for a one-character separator: split at every occurrence,
keeping empty pieces, exactly like Python's `str.split('c')`. -/
def splitOnChar (c : Char) : List Char → List (List Char)
  | [] => [[]]
  | x :: xs =>
    match splitOnChar c xs with
    | [] => if x == c then [[], []] else [[x]]
    | y :: ys => if x == c then [] :: y :: ys else (x :: y) :: ys

/-- `s.split('\n')` (Python keeps empty lines). -/
def pyLines (s : String) : List String := (splitOnChar '\n' s.data).map String.mk

/-- Python's `needle in hay` substring test. -/
def listInfix (n : List Char) : List Char → Bool
  | [] => n.isEmpty
  | c :: rest => n.isPrefixOf (c :: rest) || listInfix n rest

/-- Python's `needle in hay` on `String`s. -/
def pyInStr (needle hay : String) : Bool := listInfix needle.data hay.data

/-- Python's `c in s` for a single character `c`. -/
def pyContains (c : Char) (s : String) : Bool := s.data.any (fun x => x == c)

/-- ASCII lowering, the effect of Python's `str.lower()` on the ASCII work
item type names and filters used by this program. -/
def lowerChar (c : Char) : Char :=
  if 'A' ≤ c ∧ c ≤ 'Z' then Char.ofNat (c.toNat + 32) else c

/-- `str.lower()`. -/
def pyLower (s : String) : String := String.mk (s.data.map lowerChar)

/-- The ten decimal digit characters. -/
def DIGITS : List Char := ['0', '1', '2', '3', '4', '5', '6', '7', '8', '9']

/-- The decimal digit character for `m % 10`. -/
def digitChar (m : Nat) : Char := DIGITS.getD m '0'

/-- Numeric value of a digit character. -/
def digitVal (c : Char) : Nat := c.toNat - 48

/-- Value of a list of digit characters read left to right, as computed by
Python's `int(...)` on a digit string. -/
def digitsToNat (l : List Char) : Nat := l.foldl (fun a c => a * 10 + digitVal c) 0

/-- Decimal digits of `n` accumulated in front of `acc`, most significant
first; `fuel` bounds the recursion (`n ≤ fuel` always holds at call sites,
and one digit is peeled per step). -/
def natDigitsFuel : Nat → Nat → List Char → List Char
  | 0, _, acc => acc
  | fuel + 1, n, acc =>
    if n = 0 then acc else natDigitsFuel fuel (n / 10) (digitChar (n % 10) :: acc)

/-- Decimal digits of `n` (`['0']` for zero): `str(n)` for a `Nat`. -/
def natDigits (n : Nat) : List Char := if n = 0 then ['0'] else natDigitsFuel n n []

/-- `str(n)` for a non-negative integer. -/
def natRepr (n : Nat) : String := String.mk (natDigits n)

/-- `str(i)` for a Python `int`. -/
def intRepr (i : Int) : String :=
  if i < 0 then "-" ++ natRepr i.natAbs else natRepr i.natAbs

/-- Python's `int(s)` on an already `strip`-ped character list: an optional
sign followed by one or more decimal digits (digit grouping with `_` and
non-ASCII digits are not used by this program and are not modelled). -/
def pyIntCore : List Char → Option Int
  | [] => none
  | c :: rest =>
    if c == '-' then
      if !rest.isEmpty && rest.all Char.isDigit then some (-(digitsToNat rest : Int)) else none
    else if c == '+' then
      if !rest.isEmpty && rest.all Char.isDigit then some ((digitsToNat rest : Int)) else none
    else if (c :: rest).all Char.isDigit then some ((digitsToNat (c :: rest) : Int)) else none

/-- Python's `int(s)` (which strips surrounding whitespace itself). -/
def pyInt (s : String) : Option Int := pyIntCore (stripList s.data)

/-! ## Data model

A `WorkItem` mirrors the fields of a remote work item that this program
reads and writes (`System.Id`, `System.WorkItemType`, `System.Title`,
`System.Description`, `System.State`, `System.Tags`,
`System.AssignedTo.displayName`, and the parent hierarchy link). -/

structure WorkItem where
  id : Nat
  wtype : String
  title : String
  description : String
  state : String
  tags : String
  assignedTo : String
  parent : Option Nat
  deriving Repr, DecidableEq

/-- A placeholder item used as the default of `List.getD`. -/
def dummyItem : WorkItem :=
  { id := 0, wtype := "", title := "", description := "", state := "", tags := "",
    assignedTo := "", parent := none }

/-- The remote store: the work items currently held by the tracking service. -/
abbrev AdoState := List WorkItem

/-- Hardcoded configuration from the top of `ado_integration_tool.py`. -/
def ADO_ORGANIZATION : String := "agentic-framework-hackathon"

/-- Hardcoded project name from the top of `ado_integration_tool.py`. -/
def ADO_PROJECT : String := "Agentic Framework"

/-- The `_workitems/edit` URL built by the tools for a work item id. -/
def editUrl (i : Int) : String :=
  "https://dev.azure.com/" ++ ADO_ORGANIZATION ++ "/" ++ ADO_PROJECT ++
    "/_workitems/edit/" ++ intRepr i

/-- Look a work item up by id (remote items are keyed by `System.Id`). -/
def findItem (st : AdoState) (i : Nat) : Option WorkItem :=
  List.find? (fun w => w.id == i) st

/-- Look a work item up by a Python `int` id. -/
def findItemI (st : AdoState) (i : Int) : Option WorkItem :=
  List.find? (fun w => ((w.id : Int)) == i) st

/-- Parent id of the item with id `i`, if any. -/
def parentOf (st : AdoState) (i : Nat) : Option Nat :=
  match findItem st i with
  | some w => w.parent
  | none => none

/-- Ids of the ancestors of item `i`, nearest first, following at most `fuel`
parent links. -/
def ancestorIds (st : AdoState) : Nat → Nat → List Nat
  | 0, _ => []
  | fuel + 1, i =>
    match parentOf st i with
    | some p => p :: ancestorIds st fuel p
    | none => []

/-- `i` lies strictly below `fid` in the parent hierarchy (transitive forward
hierarchy link from `fid` to `i`). -/
def isDescendantOf (st : AdoState) (fid i : Nat) : Bool :=
  (ancestorIds st st.length i).contains fid

/-- Insert a work item into a list sorted by ascending id. -/
def insertById (w : WorkItem) : List WorkItem → List WorkItem
  | [] => [w]
  | x :: xs => if w.id ≤ x.id then w :: x :: xs else x :: insertById w xs

/-- Sort work items by ascending id (the remote queries say
`ORDER BY [System.Id]`). -/
def sortById (l : List WorkItem) : List WorkItem := l.foldr insertById []

/-! ## Remote responses and spec-modelled remote behaviour -/

/-- An HTTP response from the remote tracking service: status code, body
text, and the parsed work item payload when the body is a work item. -/
structure AdoResponse where
  status : Nat
  body : String
  item : Option WorkItem
  deriving Repr, DecidableEq

/-- Next id assigned by the remote service. -/
def freshId (st : AdoState) : Nat := (st.map (fun w => w.id)).foldr max 0 + 1

/-- Modelled from the spec: the remote work-item create endpoint for a
parentless item (`POST _apis/wit/workitems/$Feature` with a JSON-patch
document of field adds).  The service stores the fields verbatim under a
fresh id with the default state `"New"` and answers `200` with the created
item (spec section 4.1 `create`, section 6). -/
def remoteCreateParentless (st : AdoState) (wtype title desc tags : String) :
    AdoState × AdoResponse :=
  let w : WorkItem :=
    { id := freshId st, wtype := wtype, title := title, description := desc,
      state := "New", tags := tags, assignedTo := "Unassigned", parent := none }
  (st ++ [w], { status := 200, body := "", item := some w })

/-- Modelled from the spec: the remote create endpoint for a child item whose
JSON-patch document also adds a `Hierarchy-Reverse` relation to `parentId`.
The service applies the document atomically: if `parentId` resolves to no
existing item the whole request fails with a non-200 status and no item is
created (spec section 4.1: "if the relation add fails, the whole create
fails and no orphan item is left"). -/
def remoteCreateChild (st : AdoState) (wtype title desc tags parentId : String) :
    AdoState × AdoResponse :=
  match List.find? (fun w => natRepr w.id == parentId) st with
  | some p =>
    let w : WorkItem :=
      { id := freshId st, wtype := wtype, title := title, description := desc,
        state := "New", tags := tags, assignedTo := "Unassigned", parent := some p.id }
    (st ++ [w], { status := 200, body := "", item := some w })
  | none =>
    (st, { status := 404, body := "parent work item not found", item := none })

/-- One field overwrite of the state field, as performed remotely by the
patch document `[{"op": "add", "path": "/fields/System.State", ...}]`. -/
def setStateFn (i : Int) (newState : String) (v : WorkItem) : WorkItem :=
  if ((v.id : Int)) == i then { v with state := newState } else v

/-- Modelled from the spec: the remote `PATCH _apis/wit/workItems/{id}`
endpoint.  If the id exists the state field is overwritten unconditionally
(no transition validation) and the service answers `200` with the updated
item; otherwise a non-200 status (spec sections 4.1 `updateState` and 6). -/
def remotePatchState (st : AdoState) (i : Int) (newState : String) :
    AdoState × AdoResponse :=
  match findItemI st i with
  | some w =>
    (st.map (setStateFn i newState),
     { status := 200, body := "", item := some { w with state := newState } })
  | none =>
    (st, { status := 404, body := "work item does not exist", item := none })

/-! ## The tools of `ado_integration_tool.py` -/

/-- Response handling of `update_work_item_state` (lines 387-395): `200` is
success and yields the "updated successfully" message built from the
response's work item fields (`'Unknown'` defaults when absent); any other
status yields the failure message carrying status code and body. -/
def handleUpdateResponse (workItemId : Int) (newState : String) (resp : AdoResponse) :
    String :=
  if resp.status == 200 then
    let title := (resp.item.map (fun w => w.title)).getD "Unknown"
    let wty := (resp.item.map (fun w => w.wtype)).getD "Unknown"
    "✅ " ++ wty ++ " updated successfully!\nID: " ++ intRepr workItemId ++
      "\nTitle: " ++ title ++ "\nNew State: " ++ newState ++ "\nURL: " ++ editUrl workItemId
  else
    "❌ Failed to update work item: " ++ natRepr resp.status ++ " - " ++ resp.body

/-- `update_work_item_state(work_item_id, new_state)` (lines 360-398): send
the one-operation patch document to the remote service and render the
response. -/
def update_work_item_state (st : AdoState) (workItemId : Int) (newState : String) :
    AdoState × String :=
  let (st', resp) := remotePatchState st workItemId newState
  (st', handleUpdateResponse workItemId newState resp)

/-- Response handling of `create_ado_feature` (lines 161-167). -/
def handleFeatureResponse (featureTitle : String) (resp : AdoResponse) : String :=
  if resp.status == 200 then
    let idText := (resp.item.map (fun w => natRepr w.id)).getD "None"
    "✅ Feature created successfully!\nID: " ++ idText ++ "\nTitle: " ++ featureTitle ++
      "\nURL: " ++ "https://dev.azure.com/" ++ ADO_ORGANIZATION ++ "/" ++ ADO_PROJECT ++
      "/_workitems/edit/" ++ idText
  else
    "❌ Failed to create Feature: " ++ natRepr resp.status ++ " - " ++ resp.body

/-- `create_ado_feature(feature_title, feature_description)` (lines 131-170):
create a Feature with the given title and description and the hardcoded tags
`"PowerBI;Fabric;Generated"`; no parent link is added. -/
def create_ado_feature (st : AdoState) (featureTitle featureDescription : String) :
    AdoState × String :=
  let (st', resp) :=
    remoteCreateParentless st "Feature" featureTitle featureDescription
      "PowerBI;Fabric;Generated"
  (st', handleFeatureResponse featureTitle resp)

/-- Response handling of `create_ado_user_story` (lines 214-220). -/
def handleStoryResponse (storyTitle : String) (resp : AdoResponse) : String :=
  if resp.status == 200 then
    let idText := (resp.item.map (fun w => natRepr w.id)).getD "None"
    "✅ User Story created successfully!\nID: " ++ idText ++ "\nTitle: " ++ storyTitle ++
      "\nURL: " ++ "https://dev.azure.com/" ++ ADO_ORGANIZATION ++ "/" ++ ADO_PROJECT ++
      "/_workitems/edit/" ++ idText
  else
    "❌ Failed to create User Story: " ++ natRepr resp.status ++ " - " ++ resp.body

/-- `create_ado_user_story(story_title, story_description, parent_feature_id)`
(lines 172-223): a single JSON-patch request carrying the fields, the tags
`"PowerBI;Fabric;Generated"` and a `Hierarchy-Reverse` relation to the given
parent id. -/
def create_ado_user_story (st : AdoState) (storyTitle storyDescription parentFeatureId : String) :
    AdoState × String :=
  let (st', resp) :=
    remoteCreateChild st "User Story" storyTitle storyDescription
      "PowerBI;Fabric;Generated" parentFeatureId
  (st', handleStoryResponse storyTitle resp)

/-- Response handling of `create_ado_task` (lines 266-272). -/
def handleTaskResponse (taskTitle : String) (resp : AdoResponse) : String :=
  if resp.status == 200 then
    let idText := (resp.item.map (fun w => natRepr w.id)).getD "None"
    "✅ Task created successfully!\nID: " ++ idText ++ "\nTitle: " ++ taskTitle ++
      "\nURL: " ++ "https://dev.azure.com/" ++ ADO_ORGANIZATION ++ "/" ++ ADO_PROJECT ++
      "/_workitems/edit/" ++ idText
  else
    "❌ Failed to create Task: " ++ natRepr resp.status ++ " - " ++ resp.body

/-- `create_ado_task(task_title, task_description, parent_story_id)` (lines
225-276): like the story create, with tags `"PowerBI;Fabric;Generated;Task"`. -/
def create_ado_task (st : AdoState) (taskTitle taskDescription parentStoryId : String) :
    AdoState × String :=
  let (st', resp) :=
    remoteCreateChild st "Task" taskTitle taskDescription
      "PowerBI;Fabric;Generated;Task" parentStoryId
  (st', handleTaskResponse taskTitle resp)

/-! ## `query_work_items_by_feature` -/

/-- One entry of the `workItemRelations` array of a WIQL link-query
response. -/
structure WiqlRelation where
  relSource : Option Nat
  relTarget : Option Nat
  deriving Repr, DecidableEq

/-- Items selected by the WIQL link query of `query_work_items_by_feature`
(lines 295-304): targets of forward hierarchy links below a Feature whose
title contains `featureName` (case-sensitive substring, spec section 4.1
`findByTitleSubstring`). -/
def descendantFilter (st : AdoState) (featureName : String) (w : WorkItem) : Bool :=
  st.any (fun f =>
    f.wtype == "Feature" && pyInStr featureName f.title && isDescendantOf st f.id w.id)

/-- Modelled from the spec: the `workItemRelations` returned by the remote
WIQL engine for the hierarchy-forward link query of lines 295-304.  Per spec
section 4.1 (`listDescendants` "queries all work items transitively linked
below it via forward hierarchy relations, returning flattened list of
Story/Task items (excludes the Feature itself)") the relations target the
transitive descendants of the matched Features only, ordered by ascending id
(`ORDER BY [System.Id]`). -/
def remoteWiqlRelations (st : AdoState) (featureName : String) : List WiqlRelation :=
  (sortById (st.filter (descendantFilter st featureName))).map
    (fun w => { relSource := w.parent, relTarget := some w.id })

/-- Target-id extraction of lines 322-326: collect `relation['target']['id']`
for every relation that has a target. -/
def queriedIds (st : AdoState) (featureName : String) : List Nat :=
  (remoteWiqlRelations st featureName).filterMap (fun r => r.relTarget)

/-- The work items of the batch-get of lines 331-339 (the remote returns the
items of the requested ids). -/
def queryDescendants (st : AdoState) (featureName : String) : List WorkItem :=
  (queriedIds st featureName).filterMap (findItem st)

/-- The `• {type} #{id}: {title}` summary line of lines 351. -/
def bulletLine (w : WorkItem) : String :=
  "• " ++ w.wtype ++ " #" ++ natRepr w.id ++ ": " ++ w.title

/-- The `  State: {state} | Assigned: {assigned}` line of line 352. -/
def stateLine (w : WorkItem) : String :=
  "  State: " ++ w.state ++ " | Assigned: " ++ w.assignedTo

/-- The two lines a work item contributes to the query result (lines
351-352). -/
def formatItem (w : WorkItem) : String :=
  bulletLine w ++ "\n" ++ stateLine w ++ "\n\n"

/-- Concatenation of the per-item fragments accumulated by the loop of lines
343-352. -/
def joinAll : List String → String
  | [] => ""
  | s :: rest => s ++ joinAll rest

/-- The first line of the query result (line 341). -/
def headerLine (featureName : String) (n : Nat) : String :=
  "✅ Found " ++ natRepr n ++ " work items for feature '" ++ featureName ++ "':"

/-- The success output of `query_work_items_by_feature` (lines 341-354). -/
def formatQueryResult (featureName : String) (items : List WorkItem) : String :=
  headerLine featureName items.length ++ "\n\n" ++ joinAll (items.map formatItem)

/-- `query_work_items_by_feature(feature_name)` (lines 278-357): run the WIQL
link query, extract the target ids, batch-get the items, and format them;
empty relation or id lists yield the `❌` messages of lines 320 and 329. -/
def query_work_items_by_feature (st : AdoState) (featureName : String) : String :=
  let relations := remoteWiqlRelations st featureName
  if relations.isEmpty then
    "❌ No work items found for feature: " ++ featureName
  else
    let ids := (relations.filterMap (fun r => r.relTarget))
    if ids.isEmpty then
      "❌ No child work items found for feature: " ++ featureName
    else
      formatQueryResult featureName (ids.filterMap (findItem st))

/-! ## `bulk_update_work_items_state` -/

/-- `line.strip().startswith('•')` (line 429): the first non-whitespace
character of the line is the bullet.  (Stripping also removes trailing
whitespace, which `startswith` never looks at.) -/
def lineIsBullet (line : String) : Bool :=
  match line.data.dropWhile ws with
  | c :: _ => c == '•'
  | [] => false

/-- The per-line parsing of lines 429-443: on a bullet line, split at `'#'`;
if there is more than one part, take the text of `parts[1]` up to the first
`':'`, strip it and parse it with `int(...)` (a failure skips the line);
the type text is `parts[0]` with every `'•'` removed and stripped. -/
def parseBulletLine (line : String) : Option (Int × String) :=
  if lineIsBullet line then
    match splitOnChar '#' line.data with
    | p0 :: p1 :: _ =>
      match pyIntCore (stripList (((splitOnChar ':' p1).headD []))) with
      | some n => some (n, String.mk (stripList (p0.filter (fun c => !(c == '•')))))
      | none => none
    | _ => none
  else none

/-- The type filter of line 440: no filter, or
`work_item_type_filter.lower() in work_item_type.lower()`. -/
def matchesFilter (filt : Option String) (ty : String) : Bool :=
  match filt with
  | none => true
  | some f => pyInStr (pyLower f) (pyLower ty)

/-- The `work_items_to_update` list of lines 425-443: scan the lines of the
query result in order, parse each bullet line, and keep the pairs whose type
passes the filter. -/
def parseWorkItems (queryResult : String) (filt : Option String) : List (Int × String) :=
  (pyLines queryResult).filterMap (fun line =>
    match parseBulletLine line with
    | some (i, ty) => if matchesFilter filt ty then some (i, ty) else none
    | none => none)

/-- The running state of the update loop of lines 448-461, instrumented with
`trace`: the ids passed to `update_work_item_state`, in call order (one per
loop iteration, exactly as in the source). -/
structure BulkOutcome where
  state : AdoState
  results : List String
  success : Nat
  errors : Nat
  trace : List Int
  deriving Repr, DecidableEq

/-- One iteration of the loop of lines 453-461: call
`update_work_item_state`, classify the outcome by `"✅" in update_result`,
and record the per-item result line. -/
def bulkStep (newState : String) (o : BulkOutcome) (it : Int × String) : BulkOutcome :=
  let r := update_work_item_state o.state it.1 newState
  if pyContains '✅' r.2 then
    { state := r.1,
      results := o.results ++ ["✅ " ++ it.2 ++ " #" ++ intRepr it.1 ++ " updated to " ++ newState],
      success := o.success + 1, errors := o.errors, trace := o.trace ++ [it.1] }
  else
    { state := r.1,
      results := o.results ++ ["❌ " ++ it.2 ++ " #" ++ intRepr it.1 ++ " failed to update"],
      success := o.success, errors := o.errors + 1, trace := o.trace ++ [it.1] }

/-- The whole update loop of lines 448-461. -/
def bulkAttempt (st : AdoState) (items : List (Int × String)) (newState : String) :
    BulkOutcome :=
  items.foldl (bulkStep newState) { state := st, results := [], success := 0, errors := 0, trace := [] }

/-- The summary string of lines 463-467. -/
def bulkSummary (featureName newState : String) (o : BulkOutcome) : String :=
  "✅ Bulk update completed for feature '" ++ featureName ++ "':\n" ++
    "• Successfully updated: " ++ natRepr o.success ++ " work items\n" ++
    "• Failed updates: " ++ natRepr o.errors ++ " work items\n" ++
    "• New state: " ++ newState ++ "\n\n" ++
    "Details:\n" ++ String.intercalate "\n" o.results

/-- `bulk_update_work_items_state(feature_name, new_state,
work_item_type_filter)` (lines 400-472): query the feature's work items; a
result containing `'❌'` is returned unchanged as the failure (line 421); the
ids to update are recovered by text-parsing the result (lines 425-443); an
empty list yields the "No work items found to update" failure (line 446);
otherwise each item is updated independently and the summary is returned. -/
def bulk_update_work_items_state (st : AdoState) (featureName newState : String)
    (filt : Option String) : AdoState × String :=
  let queryResult := query_work_items_by_feature st featureName
  if pyContains '❌' queryResult then
    (st, queryResult)
  else
    let items := parseWorkItems queryResult filt
    if items.isEmpty then
      (st, "❌ No work items found to update for feature '" ++ featureName ++ "'")
    else
      let o := bulkAttempt st items newState
      (o.state, bulkSummary featureName newState o)

/-! ## `api_server.py` -/

/-- The session correlation key of `ask_openai` (`api_server.py` lines
16-23): `f"thread_{hash(request.query) % 10000}"`, where `pyHash` is the
process's string hash function (`hash` is a fixed function of the string
within one interpreter process). -/
def threadIdOf (pyHash : String → Int) (query : String) : String :=
  "thread_" ++ intRepr (Int.emod (pyHash query) 10000)

/-! ## Well-formedness of remote states

The remote service enforces that titles, states, type names and display
names are single-line strings, that ids are unique, and that type names are
the fixed single-line ADO names (no `'#'`, no `'•'`, no surrounding
whitespace).  The hierarchy invariant of the data model (section 3) is
`typedState`. -/

/-- The string has no newline character (remote single-line fields). -/
def noNl (s : String) : Bool := s.data.all (fun c => !(c == '\n'))

/-- Well-formed remote work item fields. -/
def wfItem (w : WorkItem) : Bool :=
  noNl w.title && noNl w.state && noNl w.assignedTo &&
  w.wtype.data.all (fun c => !(c == '\n') && !(c == '#') && !(c == '•')) &&
  (match w.wtype.data.head? with | some c => !ws c | none => true) &&
  (match w.wtype.data.getLast? with | some c => !ws c | none => true)

/-- Pairwise-distinct ids. -/
def idsNodupB : List Nat → Bool
  | [] => true
  | x :: xs => !(xs.any (fun y => y == x)) && idsNodupB xs

/-- A well-formed remote state: well-formed items with distinct ids. -/
def wfState (st : AdoState) : Bool :=
  st.all wfItem && idsNodupB (st.map (fun w => w.id))

/-- The Feature → Story → Task hierarchy invariant of data-model section 3:
a parentless item is a Feature, a Story's parent is a Feature, a Task's
parent is a Story. -/
def typedItem (st : AdoState) (w : WorkItem) : Bool :=
  match w.parent with
  | none => w.wtype == "Feature"
  | some p =>
    match findItem st p with
    | some q =>
      (w.wtype == "User Story" && q.wtype == "Feature") ||
      (w.wtype == "Task" && q.wtype == "User Story")
    | none => false

/-- Hierarchy invariant for the whole state. -/
def typedState (st : AdoState) : Bool := st.all (typedItem st)

/-! ## The end-to-end sample scenario of spec section 8 -/

/-- The feature of the end-to-end scenario. -/
def sampleFeature : WorkItem :=
  { id := 1, wtype := "Feature", title := "Sales Dashboard", description := "ftr",
    state := "New", tags := "PowerBI;Fabric;Generated", assignedTo := "Unassigned",
    parent := none }

/-- The story of the end-to-end scenario. -/
def sampleStory : WorkItem :=
  { id := 2, wtype := "User Story", title := "Build revenue chart", description := "st",
    state := "New", tags := "PowerBI;Fabric;Generated", assignedTo := "Unassigned",
    parent := some 1 }

/-- The task of the end-to-end scenario. -/
def sampleTask : WorkItem :=
  { id := 3, wtype := "Task", title := "Write DAX measure", description := "tk",
    state := "New", tags := "PowerBI;Fabric;Generated;Task", assignedTo := "Unassigned",
    parent := some 2 }

/-- Remote state holding the scenario's feature, story and task. -/
def sampleState : AdoState := [sampleFeature, sampleStory, sampleTask]

/-! ## Auxiliary observations used in the statements -/

/-- The lines contributed to the query output by a list of items: for each
item its bullet line, its state line and a blank line, with the final blank
piece left by the trailing `"\n\n"`. -/
def itemLines (items : List WorkItem) : List String :=
  items.foldr (fun w acc => bulletLine w :: stateLine w :: "" :: acc) [""]

/-- The selection rule exactly as the claim words it: the line begins with
the bullet character `'•'`, and the text between the line's first `'#'` and
the next `':'` parses as an integer (Python `int`, which strips blanks). -/
def claimAttempted (line : String) : Option Int :=
  if (match line.data with | c :: _ => c == '•' | [] => false) &&
      line.data.any (fun c => c == '#') then
    pyIntCore (stripList (((line.data.dropWhile (fun c => !(c == '#'))).drop 1).takeWhile
      (fun c => !(c == ':'))))
  else none

/-- Whether a reply string starts with the given character (used to observe
the `✅`/`❌` success marker of a tool reply). -/
def firstCharIs (s : String) (c : Char) : Bool :=
  match s.data with
  | x :: _ => x == c
  | [] => false

/-- The stored state field of the item with the given id. -/
def stateOfI (st : AdoState) (i : Int) : Option String :=
  (findItemI st i).map (fun w => w.state)

/-! ## Lemmas about the string primitives -/

theorem splitOnChar_cons (c x : Char) (xs : List Char) :
    splitOnChar c (x :: xs) =
      match splitOnChar c xs with
      | [] => if x == c then [[], []] else [[x]]
      | y :: ys => if x == c then [] :: y :: ys else (x :: y) :: ys := rfl

theorem splitOnChar_ne_nil (c : Char) (l : List Char) : splitOnChar c l ≠ [] := by
  induction l with
  | nil => simp [splitOnChar]
  | cons x xs ih =>
    rw [splitOnChar_cons]
    cases h : splitOnChar c xs with
    | nil => exact absurd h ih
    | cons y ys => by_cases hx : x == c <;> simp [hx]

theorem splitOnChar_no_sep {c : Char} {l : List Char}
    (h : ∀ x ∈ l, (x == c) = false) : splitOnChar c l = [l] := by
  induction l with
  | nil => rfl
  | cons x xs ih =>
    rw [splitOnChar_cons, ih fun y hy => h y (List.mem_cons_of_mem _ hy)]
    simp [h x (List.mem_cons_self x xs)]

theorem splitOnChar_append {c : Char} {l1 l2 : List Char}
    (h : ∀ x ∈ l1, (x == c) = false) :
    splitOnChar c (l1 ++ c :: l2) = l1 :: splitOnChar c l2 := by
  induction l1 with
  | nil =>
    rw [List.nil_append, splitOnChar_cons]
    cases hsp : splitOnChar c l2 with
    | nil => exact absurd hsp (splitOnChar_ne_nil c l2)
    | cons y ys => simp
  | cons x xs ih =>
    rw [List.cons_append, splitOnChar_cons,
      ih fun y hy => h y (List.mem_cons_of_mem _ hy)]
    simp [h x (List.mem_cons_self x xs)]

theorem splitOnChar_headD (c : Char) (l : List Char) :
    (splitOnChar c l).headD [] = l.takeWhile (fun x => !(x == c)) := by
  induction l with
  | nil => rfl
  | cons x xs ih =>
    rw [splitOnChar_cons]
    cases hsp : splitOnChar c xs with
    | nil => exact absurd hsp (splitOnChar_ne_nil c xs)
    | cons y ys =>
      rw [hsp] at ih
      simp only [List.headD_cons] at ih
      cases hx : x == c <;> simp [hx, List.takeWhile_cons, ih]

theorem dropWhile_ws_of_head {l : List Char} {c : Char}
    (hc : ws c = false) : List.dropWhile ws (c :: l) = c :: l := by
  simp [List.dropWhile_cons, hc]

theorem stripList_of_clean {l : List Char} (h : ∀ c ∈ l, ws c = false) :
    stripList l = l := by
  have h1 : List.dropWhile ws l = l := by
    cases l with
    | nil => rfl
    | cons c cs => exact dropWhile_ws_of_head (h c (List.mem_cons_self c cs))
  have h2 : List.dropWhile ws l.reverse = l.reverse := by
    cases hr : l.reverse with
    | nil => rfl
    | cons c cs =>
      refine dropWhile_ws_of_head (h c ?_)
      rw [← List.mem_reverse, hr]
      exact List.mem_cons_self c cs
  unfold stripList
  rw [h1, h2, List.reverse_reverse]

theorem stripList_pad {l : List Char}
    (hh : ∀ c, l.head? = some c → ws c = false)
    (hl : ∀ c, l.getLast? = some c → ws c = false) :
    stripList (' ' :: (l ++ [' '])) = l := by
  unfold stripList
  rw [List.dropWhile_cons]
  simp only [show ws ' ' = true from rfl, if_true]
  cases l with
  | nil => rfl
  | cons c cs =>
    have hc : ws c = false := hh c rfl
    rw [List.cons_append, dropWhile_ws_of_head hc]
    have hrev : (c :: (cs ++ [' '])).reverse = ' ' :: (c :: cs).reverse := by
      simp
    rw [hrev, List.dropWhile_cons]
    simp only [show ws ' ' = true from rfl, if_true]
    have h2 : List.dropWhile ws (c :: cs).reverse = (c :: cs).reverse := by
      cases hr : (c :: cs).reverse with
      | nil => simp at hr
      | cons d ds =>
        refine dropWhile_ws_of_head (hl d ?_)
        rw [← List.head?_reverse, hr]
        rfl
    rw [h2, List.reverse_reverse]

/-! ## Lemmas about decimal digits -/

theorem digits_facts : ∀ ch ∈ DIGITS, ch.isDigit = true ∧ (ch == '-') = false ∧
    (ch == '+') = false ∧ (ch == '\n') = false ∧ (ch == '#') = false ∧
    (ch == ':') = false ∧ (ch == '•') = false ∧ ws ch = false := by decide

theorem digitChar_mem {m : Nat} (h : m < 10) : digitChar m ∈ DIGITS := by
  interval_cases m <;> decide

theorem digitVal_digitChar {m : Nat} (h : m < 10) : digitVal (digitChar m) = m := by
  interval_cases m <;> decide

theorem natDigitsFuel_mem :
    ∀ (fuel n : Nat) (acc : List Char), ∀ ch ∈ natDigitsFuel fuel n acc,
      ch ∈ DIGITS ∨ ch ∈ acc := by
  intro fuel
  induction fuel with
  | zero =>
    intro n acc ch hch
    right
    simpa [natDigitsFuel] using hch
  | succ f ih =>
    intro n acc ch hch
    rw [natDigitsFuel] at hch
    by_cases hn : n = 0
    · rw [if_pos hn] at hch
      exact Or.inr hch
    · rw [if_neg hn] at hch
      rcases ih (n / 10) _ ch hch with h | h
      · exact Or.inl h
      · rcases List.mem_cons.mp h with h | h
        · exact Or.inl (h ▸ digitChar_mem (Nat.mod_lt _ (by omega)))
        · exact Or.inr h

theorem natDigitsFuel_length :
    ∀ (fuel n : Nat) (acc : List Char), acc.length ≤ (natDigitsFuel fuel n acc).length := by
  intro fuel
  induction fuel with
  | zero => intro n acc; simp [natDigitsFuel]
  | succ f ih =>
    intro n acc
    rw [natDigitsFuel]
    by_cases hn : n = 0
    · rw [if_pos hn]
    · rw [if_neg hn]
      calc acc.length ≤ (digitChar (n % 10) :: acc).length := by simp
        _ ≤ _ := ih (n / 10) _

theorem natDigits_mem {n : Nat} : ∀ ch ∈ natDigits n, ch ∈ DIGITS := by
  intro ch hch
  unfold natDigits at hch
  split at hch
  · simp at hch
    subst hch
    decide
  · rcases natDigitsFuel_mem n n [] ch hch with h | h
    · exact h
    · simp at h

theorem natDigits_ne_nil (n : Nat) : natDigits n ≠ [] := by
  unfold natDigits
  split
  · simp
  · next h =>
    match n, h with
    | m + 1, h =>
      rw [natDigitsFuel, if_neg h]
      intro hc
      have := natDigitsFuel_length m ((m + 1) / 10) (digitChar ((m + 1) % 10) :: [])
      rw [hc] at this
      simp at this

theorem foldl_digits_general (a : Nat) (l : List Char) :
    l.foldl (fun x c => x * 10 + digitVal c) a =
      a * 10 ^ l.length + l.foldl (fun x c => x * 10 + digitVal c) 0 := by
  induction l generalizing a with
  | nil => simp
  | cons c rest ih =>
    simp only [List.foldl_cons]
    rw [ih (a * 10 + digitVal c), ih (0 * 10 + digitVal c)]
    simp [List.length_cons, pow_succ]
    ring

theorem digitsToNat_cons (c : Char) (l : List Char) :
    digitsToNat (c :: l) = digitVal c * 10 ^ l.length + digitsToNat l := by
  unfold digitsToNat
  simp only [List.foldl_cons]
  rw [foldl_digits_general (0 * 10 + digitVal c)]
  simp

theorem digitsToNat_natDigitsFuel :
    ∀ (fuel n : Nat) (acc : List Char), n ≤ fuel →
      digitsToNat (natDigitsFuel fuel n acc) = n * 10 ^ acc.length + digitsToNat acc := by
  intro fuel
  induction fuel with
  | zero =>
    intro n acc h
    have : n = 0 := Nat.le_zero.mp h
    simp [this, natDigitsFuel]
  | succ f ih =>
    intro n acc h
    rw [natDigitsFuel]
    by_cases hn : n = 0
    · simp [hn]
    · rw [if_neg hn]
      have hdiv : n / 10 ≤ f := by
        have : n / 10 < n := Nat.div_lt_self (Nat.pos_of_ne_zero hn) (by omega)
        omega
      rw [ih (n / 10) _ hdiv]
      rw [digitsToNat_cons, digitVal_digitChar (Nat.mod_lt _ (by omega))]
      simp only [List.length_cons, pow_succ]
      have hdm := Nat.div_add_mod n 10
      calc n / 10 * (10 ^ acc.length * 10) + (n % 10 * 10 ^ acc.length + digitsToNat acc)
          = (10 * (n / 10) + n % 10) * 10 ^ acc.length + digitsToNat acc := by ring
        _ = n * 10 ^ acc.length + digitsToNat acc := by rw [hdm]

theorem digitsToNat_natDigits (n : Nat) : digitsToNat (natDigits n) = n := by
  unfold natDigits
  split
  · next h => subst h; decide
  · have := digitsToNat_natDigitsFuel n n [] (Nat.le_refl n)
    simpa [digitsToNat] using this

theorem pyIntCore_natDigits (n : Nat) : pyIntCore (natDigits n) = some ((n : Int)) := by
  cases h : natDigits n with
  | nil => exact absurd h (natDigits_ne_nil n)
  | cons c rest =>
    have hmem : ∀ ch ∈ c :: rest, ch ∈ DIGITS := fun ch hch =>
      natDigits_mem ch (h ▸ hch)
    have hc := digits_facts c (hmem c (List.mem_cons_self c rest))
    have hall : (c :: rest).all Char.isDigit = true :=
      List.all_eq_true.mpr fun ch hch => (digits_facts ch (hmem ch hch)).1
    simp only [pyIntCore]
    rw [hc.2.1, hc.2.2.1]
    simp only [Bool.false_eq_true, if_false, hall, if_true]
    rw [← h, digitsToNat_natDigits]

/-! ## Substring, id-uniqueness and sorting lemmas -/

theorem listInfix_subset {n h : List Char} (hin : listInfix n h = true) :
    ∀ c ∈ n, c ∈ h := by
  induction h with
  | nil =>
    unfold listInfix at hin
    intro c hc
    rw [List.isEmpty_iff.mp hin] at hc
    cases hc
  | cons x xs ih =>
    unfold listInfix at hin
    rcases Bool.or_eq_true_iff.mp hin with hp | hrec
    · exact fun c hc => (List.isPrefixOf_iff_prefix.mp hp).subset hc
    · exact fun c hc => List.mem_cons_of_mem _ (ih hrec c hc)

theorem idsNodup_inj {st : AdoState}
    (h : idsNodupB (st.map (fun w => w.id)) = true) :
    ∀ a ∈ st, ∀ b ∈ st, a.id = b.id → a = b := by
  induction st with
  | nil => intro a ha; cases ha
  | cons x xs ih =>
    rw [List.map_cons] at h
    unfold idsNodupB at h
    rcases Bool.and_eq_true_iff.mp h with ⟨hno, htl⟩
    intro a ha b hb hab
    rcases List.mem_cons.mp ha with ha | ha <;> rcases List.mem_cons.mp hb with hb | hb
    · rw [ha, hb]
    · exfalso
      rw [Bool.not_eq_true'] at hno
      have : (xs.map (fun w => w.id)).any (fun y => y == x.id) = true :=
        List.any_eq_true.mpr ⟨b.id, List.mem_map_of_mem _ hb, by
          rw [← hab, ha]; simp⟩
      rw [this] at hno
      cases hno
    · exfalso
      rw [Bool.not_eq_true'] at hno
      have : (xs.map (fun w => w.id)).any (fun y => y == x.id) = true :=
        List.any_eq_true.mpr ⟨a.id, List.mem_map_of_mem _ ha, by
          rw [hab, hb]; simp⟩
      rw [this] at hno
      cases hno
    · exact ih htl a ha b hb hab

theorem findItem_self {st : AdoState}
    (hnd : idsNodupB (st.map (fun w => w.id)) = true) {w : WorkItem} (hw : w ∈ st) :
    findItem st w.id = some w := by
  induction st with
  | nil => cases hw
  | cons x xs ih =>
    rw [List.map_cons] at hnd
    unfold idsNodupB at hnd
    rcases Bool.and_eq_true_iff.mp hnd with ⟨hno, htl⟩
    rcases List.mem_cons.mp hw with hw | hw
    · unfold findItem
      rw [hw]
      exact List.find?_cons_of_pos _ (by simp)
    · unfold findItem
      rw [List.find?_cons_of_neg]
      · exact ih htl hw
      · intro hx
        rw [Bool.not_eq_true'] at hno
        have hxw : x.id = w.id := by simpa using hx
        have : (xs.map (fun w => w.id)).any (fun y => y == x.id) = true :=
          List.any_eq_true.mpr ⟨w.id, List.mem_map_of_mem _ hw, by simp [hxw]⟩
        rw [this] at hno
        cases hno

theorem insertById_perm (w : WorkItem) (l : List WorkItem) :
    List.Perm (insertById w l) (w :: l) := by
  induction l with
  | nil => exact List.Perm.refl _
  | cons x xs ih =>
    unfold insertById
    split
    · exact List.Perm.refl _
    · exact List.Perm.trans (List.Perm.cons x ih) (List.Perm.swap w x xs)

theorem sortById_perm (l : List WorkItem) : List.Perm (sortById l) l := by
  induction l with
  | nil => exact List.Perm.refl _
  | cons x xs ih =>
    unfold sortById
    rw [List.foldr_cons]
    exact List.Perm.trans (insertById_perm x _) (List.Perm.cons x ih)

theorem mem_sortById {w : WorkItem} {l : List WorkItem} :
    w ∈ sortById l ↔ w ∈ l :=
  (sortById_perm l).mem_iff

/-! ## Newline-freeness of the formatted query output -/

theorem nlFree_append {a b : List Char}
    (ha : ∀ c ∈ a, (c == '\n') = false) (hb : ∀ c ∈ b, (c == '\n') = false) :
    ∀ c ∈ a ++ b, (c == '\n') = false := by
  intro c hc
  rcases List.mem_append.mp hc with h | h
  · exact ha c h
  · exact hb c h

theorem nlFree_natDigits (n : Nat) : ∀ c ∈ natDigits n, (c == '\n') = false :=
  fun c hc => (digits_facts c (natDigits_mem c hc)).2.2.2.1

theorem wfItem_parts {w : WorkItem} (h : wfItem w = true) :
    (∀ c ∈ w.title.data, (c == '\n') = false) ∧
    (∀ c ∈ w.state.data, (c == '\n') = false) ∧
    (∀ c ∈ w.assignedTo.data, (c == '\n') = false) ∧
    (∀ c ∈ w.wtype.data, (c == '\n') = false ∧ (c == '#') = false ∧ (c == '•') = false) ∧
    (∀ c, w.wtype.data.head? = some c → ws c = false) ∧
    (∀ c, w.wtype.data.getLast? = some c → ws c = false) := by
  unfold wfItem noNl at h
  simp only [Bool.and_eq_true, List.all_eq_true] at h
  obtain ⟨⟨⟨⟨⟨h1, h2⟩, h3⟩, h4⟩, h5⟩, h6⟩ := h
  refine ⟨fun c hc => by simpa using h1 c hc,
          fun c hc => by simpa using h2 c hc,
          fun c hc => by simpa using h3 c hc,
          fun c hc => ?_, ?_, ?_⟩
  · have := h4 c hc
    simp only [Bool.and_eq_true, Bool.not_eq_true'] at this
    exact ⟨this.1.1, this.1.2, this.2⟩
  · intro c hc
    rcases hh : w.wtype.data.head? with _ | d
    · rw [hh] at hc; cases hc
    · rw [hh] at hc h5
      cases hc
      simpa using h5
  · intro c hc
    rcases hh : w.wtype.data.getLast? with _ | d
    · rw [hh] at hc; cases hc
    · rw [hh] at hc h6
      cases hc
      simpa using h6

theorem bulletLine_data (w : WorkItem) :
    (bulletLine w).data =
      '•' :: ' ' :: (w.wtype.data ++ ' ' :: '#' ::
        (natDigits w.id ++ ':' :: ' ' :: w.title.data)) := by
  unfold bulletLine natRepr
  simp [String.data_append]

theorem stateLine_data (w : WorkItem) :
    (stateLine w).data =
      ' ' :: ' ' :: 'S' :: 't' :: 'a' :: 't' :: 'e' :: ':' :: ' ' ::
        (w.state.data ++ ' ' :: '|' :: ' ' :: 'A' :: 's' :: 's' :: 'i' :: 'g' :: 'n' ::
          'e' :: 'd' :: ':' :: ' ' :: w.assignedTo.data) := by
  unfold stateLine
  simp [String.data_append]

theorem nlFree_bulletLine {w : WorkItem} (h : wfItem w = true) :
    ∀ c ∈ (bulletLine w).data, (c == '\n') = false := by
  obtain ⟨ht, _, _, hty, _, _⟩ := wfItem_parts h
  rw [bulletLine_data]
  intro c hc
  rcases List.mem_cons.mp hc with hc | hc
  · subst hc; decide
  rcases List.mem_cons.mp hc with hc | hc
  · subst hc; decide
  rcases List.mem_append.mp hc with hc | hc
  · exact (hty c hc).1
  rcases List.mem_cons.mp hc with hc | hc
  · subst hc; decide
  rcases List.mem_cons.mp hc with hc | hc
  · subst hc; decide
  rcases List.mem_append.mp hc with hc | hc
  · exact nlFree_natDigits _ c hc
  rcases List.mem_cons.mp hc with hc | hc
  · subst hc; decide
  rcases List.mem_cons.mp hc with hc | hc
  · subst hc; decide
  · exact ht c hc

theorem natRepr_data (n : Nat) : (natRepr n).data = natDigits n := rfl

theorem nlFree_stateLine {w : WorkItem} (h : wfItem w = true) :
    ∀ c ∈ (stateLine w).data, (c == '\n') = false := by
  obtain ⟨_, hs, ha, _, _, _⟩ := wfItem_parts h
  unfold stateLine
  simp only [String.data_append]
  intro c hc
  simp only [List.mem_append] at hc
  rcases hc with ((hc | hc) | hc) | hc
  · exact (by decide : ∀ c ∈ ("  State: " : String).data, (c == '\n') = false) c hc
  · exact hs c hc
  · exact (by decide : ∀ c ∈ (" | Assigned: " : String).data, (c == '\n') = false) c hc
  · exact ha c hc

theorem nlFree_headerLine {fname : String} (hf : ∀ c ∈ fname.data, (c == '\n') = false)
    (n : Nat) : ∀ c ∈ (headerLine fname n).data, (c == '\n') = false := by
  unfold headerLine
  simp only [String.data_append]
  intro c hc
  simp only [List.mem_append] at hc
  rcases hc with (((hc | hc) | hc) | hc) | hc
  · exact (by decide : ∀ c ∈ ("✅ Found " : String).data, (c == '\n') = false) c hc
  · rw [natRepr_data] at hc
    exact nlFree_natDigits n c hc
  · exact (by decide :
      ∀ c ∈ (" work items for feature '" : String).data, (c == '\n') = false) c hc
  · exact hf c hc
  · exact (by decide : ∀ c ∈ ("':" : String).data, (c == '\n') = false) c hc

/-! ## Splitting the query output into lines -/

theorem mk_data (s : String) : String.mk s.data = s := rfl

theorem splitOnChar_cons_sep (c : Char) (l : List Char) :
    splitOnChar c (c :: l) = [] :: splitOnChar c l := by
  rw [splitOnChar_cons]
  cases h : splitOnChar c l with
  | nil => exact absurd h (splitOnChar_ne_nil c l)
  | cons y ys => simp

theorem pyLines_join {items : List WorkItem} (hwf : ∀ w ∈ items, wfItem w = true) :
    pyLines (joinAll (items.map formatItem)) = itemLines items := by
  induction items with
  | nil => rfl
  | cons w rest ih =>
    have hw : wfItem w = true := hwf w (List.mem_cons_self w rest)
    have hrest : ∀ v ∈ rest, wfItem v = true := fun v hv =>
      hwf v (List.mem_cons_of_mem _ hv)
    have hdata : (joinAll ((w :: rest).map formatItem)).data =
        (bulletLine w).data ++ '\n' :: ((stateLine w).data ++ '\n' :: '\n' ::
          (joinAll (rest.map formatItem)).data) := by
      show (formatItem w ++ joinAll (rest.map formatItem)).data = _
      unfold formatItem
      simp [String.data_append, List.append_assoc]
    unfold pyLines
    rw [hdata, splitOnChar_append (nlFree_bulletLine hw),
      splitOnChar_append (nlFree_stateLine hw), splitOnChar_cons_sep]
    simp only [List.map_cons, mk_data]
    rw [show itemLines (w :: rest) = bulletLine w :: stateLine w :: "" :: itemLines rest
      from rfl, ← ih hrest]
    rfl

theorem pyLines_formatQueryResult {fname : String} {items : List WorkItem}
    (hwf : ∀ w ∈ items, wfItem w = true)
    (hfn : ∀ c ∈ fname.data, (c == '\n') = false) :
    pyLines (formatQueryResult fname items) =
      headerLine fname items.length :: "" :: itemLines items := by
  have hdata : (formatQueryResult fname items).data =
      (headerLine fname items.length).data ++ '\n' :: '\n' ::
        (joinAll (items.map formatItem)).data := by
    unfold formatQueryResult
    simp [String.data_append, List.append_assoc]
  unfold pyLines
  rw [hdata, splitOnChar_append (nlFree_headerLine hfn items.length),
    splitOnChar_cons_sep]
  simp only [List.map_cons, mk_data]
  rw [← pyLines_join hwf]
  rfl

/-! ## Parsing the individual lines -/

theorem takeWhile_append_all {p : Char → Bool} {l1 l2 : List Char}
    (h : ∀ c ∈ l1, p c = true) :
    (l1 ++ l2).takeWhile p = l1 ++ l2.takeWhile p := by
  induction l1 with
  | nil => rfl
  | cons x xs ih =>
    rw [List.cons_append, List.takeWhile_cons_of_pos (h x (List.mem_cons_self x xs)),
      ih fun c hc => h c (List.mem_cons_of_mem _ hc), List.cons_append]

theorem lineIsBullet_bulletLine (w : WorkItem) : lineIsBullet (bulletLine w) = true := by
  unfold lineIsBullet
  rw [bulletLine_data, dropWhile_ws_of_head (by decide)]
  rfl

theorem lineIsBullet_stateLine (w : WorkItem) : lineIsBullet (stateLine w) = false := by
  unfold lineIsBullet
  rw [stateLine_data]
  rw [List.dropWhile_cons, if_pos (by decide), List.dropWhile_cons, if_pos (by decide),
    dropWhile_ws_of_head (by decide)]
  rfl

theorem lineIsBullet_headerLine (fname : String) (n : Nat) :
    lineIsBullet (headerLine fname n) = false := by
  unfold lineIsBullet headerLine
  simp only [String.data_append, List.append_assoc,
    show ("✅ Found " : String).data = ['✅', ' ', 'F', 'o', 'u', 'n', 'd', ' '] from rfl,
    List.cons_append]
  rw [dropWhile_ws_of_head (by decide)]
  rfl

theorem parseBulletLine_of_not_bullet {line : String} (h : lineIsBullet line = false) :
    parseBulletLine line = none := by
  unfold parseBulletLine
  rw [h]
  rfl

theorem parseBulletLine_empty : parseBulletLine "" = none := rfl

theorem parseBulletLine_bulletLine {w : WorkItem} (h : wfItem w = true) :
    parseBulletLine (bulletLine w) = some (((w.id : Nat) : Int), w.wtype) := by
  obtain ⟨ht, hs, ha, hty, hhd, hlast⟩ := wfItem_parts h
  have hdigs := fun c hc => digits_facts c (natDigits_mem (n := w.id) c hc)
  unfold parseBulletLine
  rw [lineIsBullet_bulletLine w, if_pos rfl, bulletLine_data]
  have hshape : '•' :: ' ' :: (w.wtype.data ++ ' ' :: '#' ::
      (natDigits w.id ++ ':' :: ' ' :: w.title.data)) =
      ('•' :: ' ' :: (w.wtype.data ++ [' '])) ++ '#' ::
        (natDigits w.id ++ ':' :: ' ' :: w.title.data) := by
    simp
  have hp0hash : ∀ c ∈ '•' :: ' ' :: (w.wtype.data ++ [' ']), (c == '#') = false := by
    intro c hc
    rcases List.mem_cons.mp hc with hc | hc
    · subst hc; decide
    rcases List.mem_cons.mp hc with hc | hc
    · subst hc; decide
    rcases List.mem_append.mp hc with hc | hc
    · exact (hty c hc).2.1
    · have hsp : c = ' ' := List.mem_singleton.mp hc
      subst hsp
      decide
  rw [hshape, splitOnChar_append hp0hash]
  cases hp : splitOnChar '#' (natDigits w.id ++ ':' :: ' ' :: w.title.data) with
  | nil => exact absurd hp (splitOnChar_ne_nil _ _)
  | cons p1 ps =>
    have hp1 : p1 = natDigits w.id ++ ':' :: ' ' ::
        (w.title.data.takeWhile (fun x => !(x == '#'))) := by
      have hh := splitOnChar_headD '#' (natDigits w.id ++ ':' :: ' ' :: w.title.data)
      rw [hp, List.headD_cons] at hh
      rw [hh, takeWhile_append_all (fun c hc => by simp [(hdigs c hc).2.2.2.2.1]),
        List.takeWhile_cons_of_pos (by decide), List.takeWhile_cons_of_pos (by decide)]
    have hid : (splitOnChar ':' p1).headD [] = natDigits w.id := by
      rw [hp1, splitOnChar_append (fun c hc => by simp [(hdigs c hc).2.2.2.2.2.1])]
      rfl
    simp only [hid]
    rw [stripList_of_clean (fun c hc => (hdigs c hc).2.2.2.2.2.2.2), pyIntCore_natDigits]
    have hfilter : List.filter (fun c => !(c == '•'))
        ('•' :: ' ' :: (w.wtype.data ++ [' '])) = ' ' :: (w.wtype.data ++ [' ']) := by
      rw [List.filter_cons_of_neg (by decide), List.filter_cons_of_pos (by decide),
        List.filter_append, List.filter_eq_self.mpr (fun c hc => by simp [(hty c hc).2.2])]
      rfl
    rw [hfilter, stripList_pad hhd hlast, mk_data]

/-! ## What the bulk parser recovers from a formatted query result -/

theorem parseWorkItems_itemLines {items : List WorkItem} {filt : Option String}
    (hwf : ∀ w ∈ items, wfItem w = true) :
    (itemLines items).filterMap (fun line =>
        match parseBulletLine line with
        | some (i, ty) => if matchesFilter filt ty then some (i, ty) else none
        | none => none) =
      (items.filter (fun w => matchesFilter filt w.wtype)).map
        (fun w => (((w.id : Nat) : Int), w.wtype)) := by
  induction items with
  | nil => rfl
  | cons w rest ih =>
    have hw : wfItem w = true := hwf w (List.mem_cons_self w rest)
    have hrest : ∀ v ∈ rest, wfItem v = true := fun v hv =>
      hwf v (List.mem_cons_of_mem _ hv)
    rw [show itemLines (w :: rest) =
      bulletLine w :: stateLine w :: "" :: itemLines rest from rfl]
    simp only [List.filterMap_cons, parseBulletLine_bulletLine hw,
      parseBulletLine_of_not_bullet (lineIsBullet_stateLine w), parseBulletLine_empty]
    cases hm : matchesFilter filt w.wtype <;> simp [hm, List.filter_cons, ih hrest]

theorem parseWorkItems_format {fname : String} {items : List WorkItem}
    {filt : Option String}
    (hwf : ∀ w ∈ items, wfItem w = true)
    (hfn : ∀ c ∈ fname.data, (c == '\n') = false) :
    parseWorkItems (formatQueryResult fname items) filt =
      (items.filter (fun w => matchesFilter filt w.wtype)).map
        (fun w => (((w.id : Nat) : Int), w.wtype)) := by
  unfold parseWorkItems
  rw [pyLines_formatQueryResult hwf hfn]
  simp only [List.filterMap_cons,
    parseBulletLine_of_not_bullet (lineIsBullet_headerLine fname items.length),
    parseBulletLine_empty]
  exact parseWorkItems_itemLines hwf

/-! ## The single-item update and the bulk loop -/

theorem map_eq_self_of_fix {α : Type} {f : α → α} {l : List α}
    (h : ∀ v ∈ l, f v = v) : l.map f = l := by
  induction l with
  | nil => rfl
  | cons x xs ih =>
    rw [List.map_cons, h x (List.mem_cons_self x xs),
      ih fun v hv => h v (List.mem_cons_of_mem _ hv)]

theorem update_found {st : AdoState} {i : Int} {w : WorkItem}
    (hf : findItemI st i = some w) (ns : String) :
    update_work_item_state st i ns =
      (st.map (setStateFn i ns),
       "✅ " ++ w.wtype ++ " updated successfully!\nID: " ++ intRepr i ++
         "\nTitle: " ++ w.title ++ "\nNew State: " ++ ns ++ "\nURL: " ++ editUrl i) := by
  unfold update_work_item_state remotePatchState
  rw [hf]
  rfl

theorem update_notfound {st : AdoState} {i : Int}
    (hf : findItemI st i = none) (ns : String) :
    update_work_item_state st i ns =
      (st, "❌ Failed to update work item: " ++ natRepr 404 ++ " - " ++
        "work item does not exist") := by
  unfold update_work_item_state remotePatchState
  rw [hf]
  rfl

theorem update_fst (st : AdoState) (i : Int) (ns : String) :
    (update_work_item_state st i ns).1 = st.map (setStateFn i ns) := by
  cases hf : findItemI st i with
  | some w => rw [update_found hf ns]
  | none =>
    rw [update_notfound hf ns]
    refine (map_eq_self_of_fix fun v hv => ?_).symm
    unfold setStateFn
    rw [if_neg (List.find?_eq_none.mp hf v hv)]

theorem pyContains_append (c : Char) (a b : String) :
    pyContains c (a ++ b) = (pyContains c a || pyContains c b) := by
  unfold pyContains
  rw [String.data_append, List.any_append]

theorem pyContains_update_found {st : AdoState} {i : Int} {w : WorkItem}
    (hf : findItemI st i = some w) (ns : String) :
    pyContains '✅' (update_work_item_state st i ns).2 = true := by
  rw [update_found hf ns]
  simp only [pyContains_append]
  rw [show pyContains '✅' "✅ " = true from rfl]
  simp

theorem pyContains_update_notfound {st : AdoState} {i : Int}
    (hf : findItemI st i = none) (ns : String) :
    pyContains '✅' (update_work_item_state st i ns).2 = false := by
  rw [update_notfound hf ns]
  show pyContains '✅' ("❌ Failed to update work item: " ++ natRepr 404 ++ " - " ++
    "work item does not exist") = false
  decide

theorem bulkStep_state (ns : String) (o : BulkOutcome) (it : Int × String) :
    (bulkStep ns o it).state = o.state.map (setStateFn it.1 ns) := by
  simp only [bulkStep]
  split <;> exact update_fst o.state it.1 ns

theorem bulkStep_counters (ns : String) (o : BulkOutcome) (it : Int × String) :
    (bulkStep ns o it).trace = o.trace ++ [it.1] ∧
    (bulkStep ns o it).success + (bulkStep ns o it).errors = o.success + o.errors + 1 ∧
    (bulkStep ns o it).results.length = o.results.length + 1 := by
  simp only [bulkStep]
  split <;> simp <;> omega

theorem bulkFold_counters (ns : String) :
    ∀ (items : List (Int × String)) (o : BulkOutcome),
      (items.foldl (bulkStep ns) o).trace = o.trace ++ items.map Prod.fst ∧
      (items.foldl (bulkStep ns) o).success + (items.foldl (bulkStep ns) o).errors =
        o.success + o.errors + items.length ∧
      (items.foldl (bulkStep ns) o).results.length = o.results.length + items.length := by
  intro items
  induction items with
  | nil => intro o; simp
  | cons it rest ih =>
    intro o
    rw [List.foldl_cons]
    obtain ⟨h1, h2, h3⟩ := ih (bulkStep ns o it)
    obtain ⟨g1, g2, g3⟩ := bulkStep_counters ns o it
    refine ⟨?_, ?_, ?_⟩
    · rw [h1, g1]
      simp
    · rw [h2, g2, List.length_cons]
      omega
    · rw [h3, g3, List.length_cons]
      omega

theorem bulkAttempt_spec (st : AdoState) (items : List (Int × String)) (ns : String) :
    (bulkAttempt st items ns).trace = items.map Prod.fst ∧
    (bulkAttempt st items ns).success + (bulkAttempt st items ns).errors = items.length ∧
    (bulkAttempt st items ns).results.length = items.length := by
  have h := bulkFold_counters ns items
    { state := st, results := [], success := 0, errors := 0, trace := [] }
  simpa using h

theorem getD_map_fn {f : WorkItem → WorkItem} :
    ∀ (l : List WorkItem) (k : Nat), k < l.length →
      (l.map f).getD k dummyItem = f (l.getD k dummyItem) := by
  intro l
  induction l with
  | nil => intro k hk; cases hk
  | cons x xs ih =>
    intro k hk
    cases k with
    | zero => simp
    | succ m =>
      rw [List.map_cons, List.getD_cons_succ, List.getD_cons_succ]
      exact ih m (by simpa using hk)

theorem bulkFold_length (ns : String) :
    ∀ (items : List (Int × String)) (o : BulkOutcome),
      (items.foldl (bulkStep ns) o).state.length = o.state.length := by
  intro items
  induction items with
  | nil => intro o; rfl
  | cons it rest ih =>
    intro o
    rw [List.foldl_cons, ih (bulkStep ns o it), bulkStep_state]
    exact List.length_map _ _

theorem bulkFold_fix (ns : String) :
    ∀ (items : List (Int × String)) (o : BulkOutcome) (k : Nat),
      k < o.state.length →
      (∀ it ∈ items, (((o.state.getD k dummyItem).id : Nat) : Int) ≠ it.1) →
      (items.foldl (bulkStep ns) o).state.getD k dummyItem = o.state.getD k dummyItem := by
  intro items
  induction items with
  | nil => intro o k _ _; rfl
  | cons it rest ih =>
    intro o k hk hids
    rw [List.foldl_cons]
    have hstep : (bulkStep ns o it).state.getD k dummyItem = o.state.getD k dummyItem := by
      rw [bulkStep_state, getD_map_fn o.state k hk]
      unfold setStateFn
      rw [if_neg (by simpa using hids it (List.mem_cons_self it rest))]
    have hlen : k < (bulkStep ns o it).state.length := by
      rw [bulkStep_state, List.length_map]
      exact hk
    have hnext : ∀ v ∈ rest,
        ((((bulkStep ns o it).state.getD k dummyItem).id : Nat) : Int) ≠ v.1 := by
      rw [hstep]
      exact fun v hv => hids v (List.mem_cons_of_mem _ hv)
    rw [ih (bulkStep ns o it) k hlen hnext, hstep]

/-! ## The query pipeline -/

theorem queriedIds_eq (st : AdoState) (fname : String) :
    queriedIds st fname =
      (sortById (st.filter (descendantFilter st fname))).map (fun w => w.id) := by
  unfold queriedIds remoteWiqlRelations
  induction sortById (st.filter (descendantFilter st fname)) with
  | nil => rfl
  | cons x xs ih => simp only [List.map_cons, List.filterMap_cons] at ih ⊢; rw [ih]

theorem filterMap_findItem {st : AdoState}
    (hnd : idsNodupB (st.map (fun w => w.id)) = true) :
    ∀ L : List WorkItem, (∀ w ∈ L, w ∈ st) →
      (L.map (fun w => w.id)).filterMap (findItem st) = L := by
  intro L
  induction L with
  | nil => intro _; rfl
  | cons x xs ih =>
    intro h
    rw [List.map_cons, List.filterMap_cons,
      findItem_self hnd (h x (List.mem_cons_self x xs)),
      ih fun w hw => h w (List.mem_cons_of_mem _ hw)]

theorem queryDescendants_eq {st : AdoState} {fname : String}
    (hnd : idsNodupB (st.map (fun w => w.id)) = true) :
    queryDescendants st fname = sortById (st.filter (descendantFilter st fname)) := by
  unfold queryDescendants
  rw [queriedIds_eq]
  exact filterMap_findItem hnd _ fun w hw =>
    (List.mem_filter.mp (mem_sortById.mp hw)).1

theorem mem_queryDescendants {st : AdoState} {fname : String} {w : WorkItem}
    (hnd : idsNodupB (st.map (fun w => w.id)) = true) :
    w ∈ queryDescendants st fname ↔ w ∈ st ∧ descendantFilter st fname w = true := by
  rw [queryDescendants_eq hnd, mem_sortById, List.mem_filter]

theorem query_empty {st : AdoState} {fname : String}
    (h : remoteWiqlRelations st fname = []) :
    query_work_items_by_feature st fname =
      "❌ No work items found for feature: " ++ fname := by
  unfold query_work_items_by_feature
  rw [h]
  rfl

theorem query_eq_format {st : AdoState} {fname : String}
    (hne : remoteWiqlRelations st fname ≠ []) :
    query_work_items_by_feature st fname =
      formatQueryResult fname (queryDescendants st fname) := by
  have hS : sortById (st.filter (descendantFilter st fname)) ≠ [] := by
    intro h
    apply hne
    unfold remoteWiqlRelations
    rw [h]
    rfl
  have h1 : (remoteWiqlRelations st fname).isEmpty = false := by
    rw [List.isEmpty_eq_false]
    exact hne
  have h2 : ((remoteWiqlRelations st fname).filterMap (fun r => r.relTarget)).isEmpty
      = false := by
    rw [List.isEmpty_eq_false,
      show (remoteWiqlRelations st fname).filterMap (fun r => r.relTarget) =
        queriedIds st fname from rfl, queriedIds_eq]
    intro h
    exact hS (List.map_eq_nil_iff.mp h)
  simp only [query_work_items_by_feature, h1, h2, Bool.false_eq_true, if_false]
  rfl

theorem fname_nlFree_of_rels {st : AdoState} {fname : String}
    (hwf : st.all wfItem = true)
    (hne : remoteWiqlRelations st fname ≠ []) :
    ∀ c ∈ fname.data, (c == '\n') = false := by
  have h2 : st.filter (descendantFilter st fname) ≠ [] := by
    intro h
    apply hne
    unfold remoteWiqlRelations
    rw [h]
    rfl
  rcases List.exists_mem_of_ne_nil _ h2 with ⟨w, hw⟩
  have hw' := List.mem_filter.mp hw
  have hany := hw'.2
  unfold descendantFilter at hany
  rcases List.any_eq_true.mp hany with ⟨f, hf, hfp⟩
  rcases Bool.and_eq_true_iff.mp hfp with ⟨hfp1, _⟩
  rcases Bool.and_eq_true_iff.mp hfp1 with ⟨_, hsub⟩
  have hsubset := listInfix_subset hsub
  obtain ⟨htitle, _⟩ := wfItem_parts (List.all_eq_true.mp hwf f hf)
  exact fun c hc => htitle c (hsubset c hc)

theorem pyContains_query_err (fname : String) :
    pyContains '❌' ("❌ No work items found for feature: " ++ fname) = true := by
  rw [pyContains_append, show pyContains '❌' "❌ No work items found for feature: " = true
    from rfl]
  rfl

/-! ## The bulk branches -/

theorem bulk_on_error {st : AdoState} {fname ns : String} {filt : Option String}
    (h : pyContains '❌' (query_work_items_by_feature st fname) = true) :
    bulk_update_work_items_state st fname ns filt =
      (st, query_work_items_by_feature st fname) := by
  unfold bulk_update_work_items_state
  rw [if_pos h]

theorem bulk_no_items {st : AdoState} {fname ns : String} {filt : Option String}
    (hq : pyContains '❌' (query_work_items_by_feature st fname) = false)
    (hni : parseWorkItems (query_work_items_by_feature st fname) filt = []) :
    bulk_update_work_items_state st fname ns filt =
      (st, "❌ No work items found to update for feature '" ++ fname ++ "'") := by
  unfold bulk_update_work_items_state
  rw [if_neg (by rw [hq]; simp), if_pos (by rw [hni]; rfl)]

theorem bulk_main {st : AdoState} {fname ns : String} {filt : Option String}
    (hq : pyContains '❌' (query_work_items_by_feature st fname) = false)
    (hne : parseWorkItems (query_work_items_by_feature st fname) filt ≠ []) :
    bulk_update_work_items_state st fname ns filt =
      ((bulkAttempt st (parseWorkItems (query_work_items_by_feature st fname) filt) ns).state,
       bulkSummary fname ns
         (bulkAttempt st (parseWorkItems (query_work_items_by_feature st fname) filt) ns)) := by
  have h1 : ¬ pyContains '❌' (query_work_items_by_feature st fname) = true := by
    rw [hq]
    simp
  have h2 : ¬ (parseWorkItems (query_work_items_by_feature st fname) filt).isEmpty
      = true := by
    rw [List.isEmpty_iff]
    exact hne
  unfold bulk_update_work_items_state
  rw [if_neg h1, if_neg h2]

/-! ## Hierarchy typing of descendants -/

theorem descendantFilter_iff {st : AdoState} {fname : String} {w : WorkItem} :
    descendantFilter st fname w = true ↔
      ∃ f ∈ st, f.wtype = "Feature" ∧ pyInStr fname f.title = true ∧
        isDescendantOf st f.id w.id = true := by
  unfold descendantFilter
  rw [List.any_eq_true]
  constructor
  · rintro ⟨f, hf, hfp⟩
    rcases Bool.and_eq_true_iff.mp hfp with ⟨h1, h3⟩
    rcases Bool.and_eq_true_iff.mp h1 with ⟨hw, h2⟩
    exact ⟨f, hf, eq_of_beq hw, h2, h3⟩
  · rintro ⟨f, hf, h1, h2, h3⟩
    exact ⟨f, hf, by simp [h1, h2, h3]⟩

theorem descendant_is_child {st : AdoState} {fname : String} {w : WorkItem}
    (hnd : idsNodupB (st.map (fun w => w.id)) = true)
    (hty : typedState st = true)
    (hw : w ∈ st) (hd : descendantFilter st fname w = true) :
    w.wtype = "User Story" ∨ w.wtype = "Task" := by
  rcases descendantFilter_iff.mp hd with ⟨f, _, _, _, hdesc⟩
  unfold isDescendantOf at hdesc
  obtain ⟨m, hm⟩ : ∃ m, st.length = m + 1 := by
    cases hst : st.length with
    | zero =>
      rw [List.length_eq_zero] at hst
      rw [hst] at hw
      cases hw
    | succ m => exact ⟨m, rfl⟩
  rw [hm] at hdesc
  simp only [ancestorIds] at hdesc
  cases hp : parentOf st w.id with
  | none =>
    rw [hp] at hdesc
    simp at hdesc
  | some p =>
    have hwt := List.all_eq_true.mp hty w hw
    unfold typedItem at hwt
    have hpar : w.parent = some p := by
      unfold parentOf at hp
      rw [findItem_self hnd hw] at hp
      exact hp
    rw [hpar] at hwt
    have hwt2 : (match findItem st p with
        | some q =>
          (w.wtype == "User Story" && q.wtype == "Feature") ||
          (w.wtype == "Task" && q.wtype == "User Story")
        | none => false) = true := hwt
    cases hq : findItem st p with
    | none =>
      rw [hq] at hwt2
      cases hwt2
    | some q =>
      rw [hq] at hwt2
      rcases Bool.or_eq_true_iff.mp hwt2 with h | h
      · exact Or.inl (eq_of_beq (Bool.and_eq_true_iff.mp h).1)
      · exact Or.inr (eq_of_beq (Bool.and_eq_true_iff.mp h).1)

/-! ## The claim-side description of the bulk parser -/

theorem dropWhile_append_all {p : Char → Bool} {l1 l2 : List Char}
    (h : ∀ c ∈ l1, p c = true) :
    (l1 ++ l2).dropWhile p = l2.dropWhile p := by
  induction l1 with
  | nil => rfl
  | cons x xs ih =>
    rw [List.cons_append, List.dropWhile_cons, if_pos (h x (List.mem_cons_self x xs))]
    exact ih fun c hc => h c (List.mem_cons_of_mem _ hc)

theorem claimAttempted_bulletLine {w : WorkItem} (h : wfItem w = true) :
    claimAttempted (bulletLine w) = some ((w.id : Nat) : Int) := by
  obtain ⟨ht, hs, ha, hty, hhd, hlast⟩ := wfItem_parts h
  have hdigs := fun c hc => digits_facts c (natDigits_mem (n := w.id) c hc)
  unfold claimAttempted
  rw [bulletLine_data]
  have hcond : ((match ('•' :: ' ' :: (w.wtype.data ++ ' ' :: '#' ::
        (natDigits w.id ++ ':' :: ' ' :: w.title.data)) : List Char) with
      | c :: _ => c == '•'
      | [] => false) &&
      ('•' :: ' ' :: (w.wtype.data ++ ' ' :: '#' ::
        (natDigits w.id ++ ':' :: ' ' :: w.title.data))).any (fun c => c == '#')) = true := by
    refine Bool.and_eq_true_iff.mpr ⟨rfl, List.any_eq_true.mpr ⟨'#', ?_, rfl⟩⟩
    refine List.mem_cons_of_mem _ (List.mem_cons_of_mem _ (List.mem_append_right _ ?_))
    exact List.mem_cons_of_mem _ (List.mem_cons_self _ _)
  rw [if_pos hcond]
  have hdrop : (('•' :: ' ' :: (w.wtype.data ++ ' ' :: '#' ::
      (natDigits w.id ++ ':' :: ' ' :: w.title.data))).dropWhile
        (fun c => !(c == '#'))) =
      '#' :: (natDigits w.id ++ ':' :: ' ' :: w.title.data) := by
    rw [List.dropWhile_cons, if_pos (by decide), List.dropWhile_cons, if_pos (by decide),
      dropWhile_append_all (fun c hc => by simp [(hty c hc).2.1]),
      List.dropWhile_cons, if_pos (by decide), List.dropWhile_cons, if_neg (by decide)]
  rw [hdrop, List.drop_one, List.tail_cons,
    takeWhile_append_all (fun c hc => by simp [(hdigs c hc).2.2.2.2.2.1]),
    List.takeWhile_cons_of_neg (by decide), List.append_nil,
    stripList_of_clean (fun c hc => (hdigs c hc).2.2.2.2.2.2.2), pyIntCore_natDigits]

theorem claimAttempted_not_bullet {line : String} {c : Char} {l : List Char}
    (hdata : line.data = c :: l) (h : (c == '•') = false) :
    claimAttempted line = none := by
  unfold claimAttempted
  rw [hdata, if_neg]
  intro hcond
  have h2 : (c == '•') = true := (Bool.and_eq_true_iff.mp hcond).1
  rw [h] at h2
  cases h2

theorem claimAttempted_stateLine (w : WorkItem) : claimAttempted (stateLine w) = none :=
  claimAttempted_not_bullet (stateLine_data w) (by decide)

theorem headerLine_data (fname : String) (n : Nat) :
    (headerLine fname n).data = '✅' :: ' ' :: 'F' :: 'o' :: 'u' :: 'n' :: 'd' :: ' ' ::
      (natDigits n ++ ' ' :: 'w' :: 'o' :: 'r' :: 'k' :: ' ' :: 'i' :: 't' :: 'e' :: 'm' ::
        's' :: ' ' :: 'f' :: 'o' :: 'r' :: ' ' :: 'f' :: 'e' :: 'a' :: 't' :: 'u' :: 'r' ::
        'e' :: ' ' :: '\'' :: (fname.data ++ ['\'', ':'])) := by
  unfold headerLine natRepr
  simp [String.data_append]

theorem claimAttempted_headerLine (fname : String) (n : Nat) :
    claimAttempted (headerLine fname n) = none :=
  claimAttempted_not_bullet (headerLine_data fname n) (by decide)

theorem claimAttempted_empty : claimAttempted "" = none := rfl

theorem claimAttempted_itemLines {items : List WorkItem}
    (hwf : ∀ w ∈ items, wfItem w = true) :
    (itemLines items).filterMap claimAttempted =
      items.map (fun w => ((w.id : Nat) : Int)) := by
  induction items with
  | nil => rfl
  | cons w rest ih =>
    have hw : wfItem w = true := hwf w (List.mem_cons_self w rest)
    have hrest : ∀ v ∈ rest, wfItem v = true := fun v hv =>
      hwf v (List.mem_cons_of_mem _ hv)
    rw [show itemLines (w :: rest) =
      bulletLine w :: stateLine w :: "" :: itemLines rest from rfl]
    simp only [List.filterMap_cons, claimAttempted_bulletLine hw,
      claimAttempted_stateLine w, claimAttempted_empty]
    rw [ih hrest]
    rfl

/-! ## Further update-state lemmas (for the idempotence claim) -/

theorem findItemI_map_set {st : AdoState} {i : Int} {ns : String} {w : WorkItem}
    (hf : findItemI st i = some w) :
    findItemI (st.map (setStateFn i ns)) i = some { w with state := ns } := by
  induction st with
  | nil => cases hf
  | cons x xs ih =>
    cases hx : ((x.id : Nat) : Int) == i with
    | true =>
      have hfx : findItemI (x :: xs) i = some x :=
        List.find?_cons_of_pos _ hx
      rw [hfx] at hf
      cases hf
      unfold findItemI
      rw [List.map_cons]
      have hsw : setStateFn i ns w = { w with state := ns } := by
        simp [setStateFn, hx]
      rw [hsw]
      exact List.find?_cons_of_pos _ hx
    | false =>
      have hfx : findItemI (x :: xs) i = findItemI xs i := by
        unfold findItemI
        exact List.find?_cons_of_neg _ (by rw [hx]; simp)
      rw [hfx] at hf
      unfold findItemI
      rw [List.map_cons]
      rw [List.find?_cons_of_neg _ ?_]
      · exact ih hf
      · unfold setStateFn
        rw [hx, if_neg (by simp)]
        rw [hx]
        simp

theorem setStateFn_idem (i : Int) (ns : String) (v : WorkItem) :
    setStateFn i ns (setStateFn i ns v) = setStateFn i ns v := by
  cases v
  unfold setStateFn
  split <;> simp_all

/-! # The claims -/

set_option maxRecDepth 100000

/-- C9: the session correlation key of the front door is a function of the
request's query text alone (`thread_{hash(query) % 10000}`), so two requests
with identical query text derive the identical thread identifier and collide
on the same logical session. -/
theorem claim_C9 (pyHash : String → Int) (q1 q2 : String) (h : q1 = q2) :
    threadIdOf pyHash q1 = threadIdOf pyHash q2 := by
  rw [h]

/-- Witness for C9 at a concrete hash function and query. -/
theorem claim_C9_witness :
    threadIdOf (fun s => ((s.length : Nat) : Int)) "give me a report" =
      threadIdOf (fun s => ((s.length : Nat) : Int)) "give me a report" :=
  claim_C9 (fun s => ((s.length : Nat) : Int)) "give me a report" "give me a report" rfl

/-- C8: the response handlers of the work-item tools treat a response as
success exactly when its status code is 200 (the reply then starts with the
`✅` marker), and any other status yields the failure reply carrying the
status code and the response body. -/
theorem claim_C8 (i : Int) (ns ftitle : String) (resp : AdoResponse) :
    (firstCharIs (handleUpdateResponse i ns resp) '✅' = true ↔ resp.status = 200) ∧
    (resp.status ≠ 200 →
      handleUpdateResponse i ns resp =
        "❌ Failed to update work item: " ++ natRepr resp.status ++ " - " ++ resp.body) ∧
    (firstCharIs (handleFeatureResponse ftitle resp) '✅' = true ↔ resp.status = 200) ∧
    (resp.status ≠ 200 →
      handleFeatureResponse ftitle resp =
        "❌ Failed to create Feature: " ++ natRepr resp.status ++ " - " ++ resp.body) := by
  by_cases hs : resp.status = 200
  · have hb : (resp.status == 200) = true := by simp [hs]
    unfold handleUpdateResponse handleFeatureResponse
    rw [hb]
    simp only [if_true]
    refine ⟨⟨fun _ => hs, fun _ => ?_⟩, fun hn => absurd hs hn,
      ⟨fun _ => hs, fun _ => ?_⟩, fun hn => absurd hs hn⟩
    · rfl
    · rfl
  · have hb : (resp.status == 200) = false := by simp [hs]
    unfold handleUpdateResponse handleFeatureResponse
    rw [hb]
    simp only [Bool.false_eq_true, if_false]
    refine ⟨⟨fun hfc => ?_, fun h => absurd h hs⟩, ?_,
      ⟨fun hfc => ?_, fun h => absurd h hs⟩, ?_⟩
    · exact Bool.noConfusion (show false = true from hfc)
    · simp
    · exact Bool.noConfusion (show false = true from hfc)
    · simp

/-- Witness for C8 at a concrete non-200 response. -/
theorem claim_C8_witness :
    (404 : Nat) ≠ 200 ∧
      handleUpdateResponse 7 "Active" { status := 404, body := "missing", item := none } =
        "❌ Failed to update work item: " ++ natRepr 404 ++ " - " ++ "missing" :=
  ⟨by decide,
    (claim_C8 7 "Active" "F" { status := 404, body := "missing", item := none }).2.1
      (by decide)⟩

/-- C7: for every existing work item id and every state string, the
state-update tool overwrites the state field with exactly that string with
no transition validation (the new state needs no relation to the old one),
and a second identical call leaves the same final state, returns the very
same success reply, and reports no error. -/
theorem claim_C7 (st : AdoState) (i : Int) (ns : String) (w : WorkItem)
    (hf : findItemI st i = some w) :
    stateOfI (update_work_item_state st i ns).1 i = some ns ∧
    update_work_item_state (update_work_item_state st i ns).1 i ns =
      ((update_work_item_state st i ns).1, (update_work_item_state st i ns).2) ∧
    pyContains '✅' (update_work_item_state st i ns).2 = true := by
  have h1 := update_found hf ns
  have h2 : findItemI (st.map (setStateFn i ns)) i = some { w with state := ns } := by
    exact findItemI_map_set hf
  refine ⟨?_, ?_, pyContains_update_found hf ns⟩
  · rw [h1]
    unfold stateOfI
    rw [h2]
    rfl
  · rw [h1]
    rw [update_found h2 ns]
    have hmap : (st.map (setStateFn i ns)).map (setStateFn i ns) =
        st.map (setStateFn i ns) := by
      rw [List.map_map]
      exact List.map_congr_left fun v _ => setStateFn_idem i ns v
    rw [hmap]

/-- Witness for C7 on the sample story. -/
theorem claim_C7_witness :
    findItemI sampleState 2 = some sampleStory ∧
      stateOfI (update_work_item_state sampleState 2 "Active").1 2 = some "Active" :=
  ⟨by decide, (claim_C7 sampleState 2 "Active" sampleStory (by decide)).1⟩

/-- C5: creating a story or a task under a parent id that matches no
existing work item fails (the reply is the `❌` conversion of the remote
`404`/not-found rejection) and leaves the remote state unchanged — no
orphan child item is created, because the field writes and the parent
relation are one atomic patch document. -/
theorem claim_C5 (st : AdoState) (title desc pid : String)
    (h : ∀ w ∈ st, natRepr w.id ≠ pid) :
    create_ado_user_story st title desc pid =
      (st, "❌ Failed to create User Story: " ++ natRepr 404 ++ " - " ++
        "parent work item not found") ∧
    create_ado_task st title desc pid =
      (st, "❌ Failed to create Task: " ++ natRepr 404 ++ " - " ++
        "parent work item not found") := by
  have hf : List.find? (fun w => natRepr w.id == pid) st = none :=
    List.find?_eq_none.mpr fun w hw => by simp [h w hw]
  constructor
  · unfold create_ado_user_story remoteCreateChild
    rw [hf]
    rfl
  · unfold create_ado_task remoteCreateChild
    rw [hf]
    rfl

/-- Witness for C5 with the nonexistent parent id "99". -/
theorem claim_C5_witness :
    (∀ w ∈ sampleState, natRepr w.id ≠ "99") ∧
      create_ado_user_story sampleState "S" "D" "99" =
        (sampleState, "❌ Failed to create User Story: " ++ natRepr 404 ++ " - " ++
          "parent work item not found") :=
  ⟨by decide, (claim_C5 sampleState "S" "D" "99" (by decide)).1⟩

/-- C6 counterexample: the feature create tool accepts no tag-set input at
all; the created item's tags are always the constant
`"PowerBI;Fabric;Generated"`, so for the concrete input
`(Feature, "Sales Dashboard", "Dashboards for sales", tags = {"Urgent"})`
the created work item's tags differ from the caller's tag set. -/
theorem claim_C6_counterexample :
    ((create_ado_feature [] "Sales Dashboard" "Dashboards for sales").1.getD 0
        dummyItem).tags = "PowerBI;Fabric;Generated" ∧
    ((create_ado_feature [] "Sales Dashboard" "Dashboards for sales").1.getD 0
        dummyItem).tags ≠ "Urgent" := by
  constructor
  · rfl
  · decide

/-- C6 (amended): for every title and description given with no parent, the
feature create tool stores a work item whose title and description equal
those inputs exactly; its tag set is always the hardcoded constant
`"PowerBI;Fabric;Generated"` (the tool takes no tag input), and the success
reply echoes the id and the title. -/
theorem claim_C6 (st : AdoState) (title desc : String) :
    (create_ado_feature st title desc).1 =
      st ++ [{ id := freshId st, wtype := "Feature", title := title,
               description := desc, state := "New",
               tags := "PowerBI;Fabric;Generated", assignedTo := "Unassigned",
               parent := none }] ∧
    (create_ado_feature st title desc).2 =
      "✅ Feature created successfully!\nID: " ++ natRepr (freshId st) ++
        "\nTitle: " ++ title ++ "\nURL: " ++ "https://dev.azure.com/" ++
        ADO_ORGANIZATION ++ "/" ++ ADO_PROJECT ++ "/_workitems/edit/" ++
        natRepr (freshId st) := by
  exact ⟨rfl, rfl⟩

/-- C3: when the feature name matches no descendant work items, the bulk
update returns the no-matching-items failure (the `❌` message produced by
the query, which the bulk operation passes through) and performs zero remote
state mutations: the returned state is the input state and no single-item
update is reached. -/
theorem claim_C3 (st : AdoState) (fname ns : String) (filt : Option String)
    (h : remoteWiqlRelations st fname = []) :
    bulk_update_work_items_state st fname ns filt =
      (st, "❌ No work items found for feature: " ++ fname) := by
  have hq := query_empty h
  rw [bulk_on_error (by rw [hq]; exact pyContains_query_err fname), hq]

/-- Witness for C3 on a feature name matching nothing. -/
theorem claim_C3_witness :
    remoteWiqlRelations sampleState "Nonexistent" = [] ∧
      bulk_update_work_items_state sampleState "Nonexistent" "Closed" none =
        (sampleState, "❌ No work items found for feature: " ++ "Nonexistent") :=
  ⟨by decide, claim_C3 sampleState "Nonexistent" "Closed" none (by decide)⟩

/-- C2: when the query succeeds and the filtered item list is non-empty, the
bulk update reaches its main loop: the loop calls the single-item state
update exactly once per parsed item in list order (the instrumented `trace`
is exactly the ids of the filtered list, regardless of which updates fail),
the success and failure counters sum to the number of items attempted, the
per-item outcome list has one entry per item, and the returned summary is
built from those counters and outcomes. -/
theorem claim_C2 (st : AdoState) (fname ns : String) (filt : Option String)
    (hq : pyContains '❌' (query_work_items_by_feature st fname) = false)
    (hne : parseWorkItems (query_work_items_by_feature st fname) filt ≠ []) :
    bulk_update_work_items_state st fname ns filt =
      ((bulkAttempt st (parseWorkItems (query_work_items_by_feature st fname) filt)
          ns).state,
       bulkSummary fname ns
         (bulkAttempt st (parseWorkItems (query_work_items_by_feature st fname) filt)
           ns)) ∧
    (bulkAttempt st (parseWorkItems (query_work_items_by_feature st fname) filt)
        ns).trace =
      (parseWorkItems (query_work_items_by_feature st fname) filt).map Prod.fst ∧
    (bulkAttempt st (parseWorkItems (query_work_items_by_feature st fname) filt)
          ns).success +
        (bulkAttempt st (parseWorkItems (query_work_items_by_feature st fname) filt)
          ns).errors =
      (parseWorkItems (query_work_items_by_feature st fname) filt).length ∧
    (bulkAttempt st (parseWorkItems (query_work_items_by_feature st fname) filt)
        ns).results.length =
      (parseWorkItems (query_work_items_by_feature st fname) filt).length := by
  obtain ⟨h1, h2, h3⟩ :=
    bulkAttempt_spec st (parseWorkItems (query_work_items_by_feature st fname) filt) ns
  exact ⟨bulk_main hq hne, h1, h2, h3⟩

/-- Witness for C2 on the sample scenario: both items are attempted, in id
order. -/
theorem claim_C2_witness :
    pyContains '❌' (query_work_items_by_feature sampleState "Sales Dashboard") = false ∧
      (bulkAttempt sampleState
          (parseWorkItems (query_work_items_by_feature sampleState "Sales Dashboard")
            none) "Closed").trace = [2, 3] := by
  refine ⟨by decide, ?_⟩
  have h :=
    (claim_C2 sampleState "Sales Dashboard" "Closed" none (by decide) (by decide)).2.1
  rw [h]
  decide

/-- C1: the bulk update with a non-empty type filter leaves every work item
whose type name does not contain the filter (case-insensitively) unchanged:
for every position of the well-formed remote state, if the item there has a
non-matching type, the item is exactly the same after the bulk update, for
every feature name and target state. -/
theorem claim_C1 (st : AdoState) (fname ns f : String) (k : Nat)
    (hwf : wfState st = true) (hf : f ≠ "") (hk : k < st.length)
    (hty : matchesFilter (some f) ((st.getD k dummyItem).wtype) = false) :
    (bulk_update_work_items_state st fname ns (some f)).1.getD k dummyItem =
      st.getD k dummyItem := by
  obtain ⟨hall, hnd⟩ := Bool.and_eq_true_iff.mp hwf
  cases hcq : pyContains '❌' (query_work_items_by_feature st fname) with
  | true => rw [bulk_on_error hcq]
  | false =>
    have hrels : remoteWiqlRelations st fname ≠ [] := by
      intro h
      rw [query_empty h, pyContains_query_err fname] at hcq
      cases hcq
    have hfn := fname_nlFree_of_rels hall hrels
    have hwfd : ∀ w ∈ queryDescendants st fname, wfItem w = true := fun w hw =>
      List.all_eq_true.mp hall w ((mem_queryDescendants hnd).mp hw).1
    have hparse : parseWorkItems (query_work_items_by_feature st fname) (some f) =
        ((queryDescendants st fname).filter
          (fun w => matchesFilter (some f) w.wtype)).map
            (fun w => (((w.id : Nat) : Int), w.wtype)) := by
      rw [query_eq_format hrels]
      exact parseWorkItems_format hwfd hfn
    have hmemk : st.getD k dummyItem ∈ st := by
      rw [List.getD_eq_get st dummyItem hk]
      exact List.get_mem st k hk
    have hids : ∀ it ∈ parseWorkItems (query_work_items_by_feature st fname) (some f),
        (((st.getD k dummyItem).id : Nat) : Int) ≠ it.1 := by
      intro it hit heq
      rw [hparse] at hit
      rcases List.mem_map.mp hit with ⟨w, hwmem, hweq⟩
      rcases List.mem_filter.mp hwmem with ⟨hwdesc, hwmatch⟩
      have hwst : w ∈ st := ((mem_queryDescendants hnd).mp hwdesc).1
      have hideq : (st.getD k dummyItem).id = w.id := by
        have h1 : it.1 = ((w.id : Nat) : Int) := by rw [← hweq]
        rw [h1] at heq
        exact_mod_cast heq
      have heqw := idsNodup_inj hnd _ hmemk _ hwst hideq
      rw [heqw, hwmatch] at hty
      cases hty
    cases hpe : parseWorkItems (query_work_items_by_feature st fname) (some f) with
    | nil => rw [bulk_no_items hcq hpe]
    | cons it rest =>
      rw [bulk_main hcq (by rw [hpe]; simp)]
      rw [← hpe] at *
      exact bulkFold_fix ns
        (parseWorkItems (query_work_items_by_feature st fname) (some f))
        { state := st, results := [], success := 0, errors := 0, trace := [] } k hk hids

/-- Witness for C1: with filter "Task", the sample story (position 1, type
"User Story") is unchanged by the bulk update. -/
theorem claim_C1_witness :
    wfState sampleState = true ∧
    matchesFilter (some "Task") ((sampleState.getD 1 dummyItem).wtype) = false ∧
    (bulk_update_work_items_state sampleState "Sales Dashboard" "Closed"
        (some "Task")).1.getD 1 dummyItem = sampleState.getD 1 dummyItem :=
  ⟨by decide, by decide,
    claim_C1 sampleState "Sales Dashboard" "Closed" "Task" 1 (by decide) (by decide)
      (by decide) (by decide)⟩

/-- C4: for a feature title substring that resolves to descendants, the
query returns the formatted list of exactly the transitive descendants of
the matched Features (an item is listed iff some Feature whose title
contains the substring is a transitive ancestor of it), each listed item is
a Story or a Task, and the Feature itself is never in the list. -/
theorem claim_C4 (st : AdoState) (fname : String)
    (hwf : wfState st = true) (hty : typedState st = true)
    (hne : queryDescendants st fname ≠ []) :
    query_work_items_by_feature st fname =
      formatQueryResult fname (queryDescendants st fname) ∧
    (∀ w, w ∈ queryDescendants st fname ↔
      (w ∈ st ∧ ∃ fe ∈ st, fe.wtype = "Feature" ∧ pyInStr fname fe.title = true ∧
        isDescendantOf st fe.id w.id = true)) ∧
    (∀ w ∈ queryDescendants st fname,
      (w.wtype = "User Story" ∨ w.wtype = "Task") ∧ w.wtype ≠ "Feature") := by
  obtain ⟨hall, hnd⟩ := Bool.and_eq_true_iff.mp hwf
  have hrels : remoteWiqlRelations st fname ≠ [] := by
    intro h
    apply hne
    unfold queryDescendants queriedIds
    rw [h]
    rfl
  refine ⟨query_eq_format hrels, ?_, ?_⟩
  · intro w
    rw [mem_queryDescendants hnd, descendantFilter_iff]
  · intro w hw
    rcases (mem_queryDescendants hnd).mp hw with ⟨hwst, hdesc⟩
    have hor := descendant_is_child hnd hty hwst hdesc
    refine ⟨hor, ?_⟩
    rcases hor with h | h <;> rw [h] <;> decide

/-- Witness for C4 on the sample scenario: the query lists exactly the story
and the task, never the feature. -/
theorem claim_C4_witness :
    wfState sampleState = true ∧ typedState sampleState = true ∧
    queryDescendants sampleState "Sales Dashboard" = [sampleStory, sampleTask] ∧
    query_work_items_by_feature sampleState "Sales Dashboard" =
      formatQueryResult "Sales Dashboard"
        (queryDescendants sampleState "Sales Dashboard") :=
  ⟨by decide, by decide, by decide,
    (claim_C4 sampleState "Sales Dashboard" (by decide) (by decide) (by decide)).1⟩

/-- C10: the bulk update selects its targets by text-parsing the query
output: any query result containing `'❌'` is returned as a failure with no
update attempted, and otherwise (at the default filter) the sequence of
single-item update calls issued is exactly given by the lines of the query
output whose first character is the bullet `'•'` and whose text between the
first `'#'` and the following `':'` parses as an integer — every other line
is silently skipped. -/
theorem claim_C10 (st : AdoState) (fname ns : String)
    (hwf : wfState st = true) :
    (∀ filt, pyContains '❌' (query_work_items_by_feature st fname) = true →
      bulk_update_work_items_state st fname ns filt =
        (st, query_work_items_by_feature st fname)) ∧
    (pyContains '❌' (query_work_items_by_feature st fname) = false →
      parseWorkItems (query_work_items_by_feature st fname) none ≠ [] ∧
      (bulkAttempt st (parseWorkItems (query_work_items_by_feature st fname) none)
          ns).trace =
        (pyLines (query_work_items_by_feature st fname)).filterMap claimAttempted) := by
  obtain ⟨hall, hnd⟩ := Bool.and_eq_true_iff.mp hwf
  refine ⟨fun filt h => bulk_on_error h, fun hcq => ?_⟩
  have hrels : remoteWiqlRelations st fname ≠ [] := by
    intro h
    rw [query_empty h, pyContains_query_err fname] at hcq
    cases hcq
  have hfn := fname_nlFree_of_rels hall hrels
  have hwfd : ∀ w ∈ queryDescendants st fname, wfItem w = true := fun w hw =>
    List.all_eq_true.mp hall w ((mem_queryDescendants hnd).mp hw).1
  have hdne : queryDescendants st fname ≠ [] := by
    rw [queryDescendants_eq hnd]
    intro h
    apply hrels
    unfold remoteWiqlRelations
    rw [h]
    rfl
  have hparse : parseWorkItems (query_work_items_by_feature st fname) none =
      (queryDescendants st fname).map (fun w => (((w.id : Nat) : Int), w.wtype)) := by
    rw [query_eq_format hrels, parseWorkItems_format hwfd hfn]
    congr 1
    exact List.filter_true _
  constructor
  · rw [hparse]
    intro h
    exact hdne (List.map_eq_nil_iff.mp h)
  · obtain ⟨htr, _, _⟩ :=
      bulkAttempt_spec st (parseWorkItems (query_work_items_by_feature st fname) none) ns
    rw [htr, hparse, query_eq_format hrels,
      pyLines_formatQueryResult hwfd hfn]
    simp only [List.filterMap_cons,
      claimAttempted_headerLine fname (queryDescendants st fname).length,
      claimAttempted_empty, claimAttempted_itemLines hwfd, List.map_map]
    rfl

/-- Witness for C10 on the sample scenario. -/
theorem claim_C10_witness :
    wfState sampleState = true ∧
      (bulkAttempt sampleState
          (parseWorkItems (query_work_items_by_feature sampleState "Sales Dashboard")
            none) "Closed").trace =
        (pyLines (query_work_items_by_feature sampleState "Sales Dashboard")).filterMap
          claimAttempted := by
  refine ⟨by decide, ?_⟩
  have h := ((claim_C10 sampleState "Sales Dashboard" "Closed" (by decide)).2
    (by decide)).2
  exact h

end Spec2Proof
